import Mathlib

/-!
# Verification of the MobileAi ultrasound core
  (src/ultrasound_core/src/ultrasound_core.cpp,
   src/ultrasound_core/include/ultrasound_core.h)

Shallow embedding of the frame decoder (header parsing, validation, CRC,
payload extraction) and the filter pipeline.  Byte buffers are `List ℕ`
with entries below 256; machine integers become `ℕ`/`ℤ`/`ℚ` — the C++
widths are noted where they matter.  The `float` configuration fields are
modelled as `ℚ`: the embedded code only compares them for (in)equality
with `1.0` / `0`, and multiplies by them.
-/

namespace Ultrasound

/-! ## Byte-level primitives -/

/-- Value of a little-endian byte list. -/
def bytesToNat : List ℕ → ℕ
  | [] => 0
  | b :: bs => b + 256 * bytesToNat bs

/-- Read `n` bytes little-endian starting at `off`: the value `memcpy` of
those `n` bytes deposits in a little-endian integer field.  All call sites
are guarded by a length check, mirroring `parseHeader`. -/
def readLE (data : List ℕ) (off n : ℕ) : ℕ :=
  bytesToNat ((data.drop off).take n)

/-- `n`-byte little-endian encoding of `v` (used only by the spec-level
encoder for the round-trip law). -/
def writeLE (v : ℕ) : ℕ → List ℕ
  | 0 => []
  | n + 1 => (v % 256) :: writeLE (v / 256) n

/-! ## UltraHeader (ultrasound_core.h lines 16-34) -/

/-- `struct UltraHeader`: nine fixed-width fields.  C++ widths:
`magicId : uint32`, `width height depth bytesPerVoxel : uint16`,
`frameNumber : uint32`, `timestamp : uint64`, `reserved crc : uint32`. -/
structure UltraHeader where
  magicId : ℕ
  width : ℕ
  height : ℕ
  depth : ℕ
  bytesPerVoxel : ℕ
  frameNumber : ℕ
  timestamp : ℕ
  reserved : ℕ
  crc : ℕ
deriving DecidableEq, Repr

/-- `UltraHeader::MAGIC_ID = 0x554C5452` ("ULTR"). -/
def MAGIC_ID : ℕ := 0x554C5452

/-- `UltraHeader::HEADER_SIZE = 32`. -/
def HEADER_SIZE : ℕ := 32

/-- `UltraHeader::isValid` (ultrasound_core.cpp lines 16-20):
magic matches and width, height, bytesPerVoxel are all positive.
`depth` is NOT checked. -/
def UltraHeader.isValid (h : UltraHeader) : Prop :=
  h.magicId = MAGIC_ID ∧ 0 < h.width ∧ 0 < h.height ∧ 0 < h.bytesPerVoxel

instance (h : UltraHeader) : Decidable h.isValid := by
  unfold UltraHeader.isValid; infer_instance

/-- `UltraHeader::getFrameDataSize` (lines 22-24):
`width * height * depth * bytesPerVoxel`.  All four factors are `uint16`,
so the `size_t` product never wraps and plain `ℕ` multiplication is exact. -/
def UltraHeader.getFrameDataSize (h : UltraHeader) : ℕ :=
  h.width * h.height * h.depth * h.bytesPerVoxel

/-- `UltrasoundSDK::parseHeader` (lines 49-70): little-endian field reads at
the fixed offsets 0,4,6,8,10,12,16,24,28. -/
def parseHeader (data : List ℕ) : UltraHeader :=
  { magicId := readLE data 0 4
    width := readLE data 4 2
    height := readLE data 6 2
    depth := readLE data 8 2
    bytesPerVoxel := readLE data 10 2
    frameNumber := readLE data 12 4
    timestamp := readLE data 16 8
    reserved := readLE data 24 4
    crc := readLE data 28 4 }

/-! ## CRC-32 (zlib `crc32`, called by `calculateCrc32`, lines 86-88) -/

/-- One byte step of the reflected CRC-32 (polynomial 0xEDB88320): XOR the
byte into the low bits, then eight conditional shift/XOR rounds.  This is
the standard algorithm implemented by zlib's `crc32`, which the repository
links against.  Entries are bytes; `% 256` totalises the model. -/
def crc32Byte (crc b : ℕ) : ℕ :=
  let c := crc ^^^ (b % 256)
  (List.range 8).foldl
    (fun c _ => if c % 2 = 1 then (c / 2) ^^^ 0xEDB88320 else c / 2) c

/-- `UltrasoundSDK::calculateCrc32` (lines 86-88): `crc32(0L, data, length)` —
initial value 0xFFFFFFFF, final complement, folded over the bytes. -/
def calculateCrc32 (data : List ℕ) : ℕ :=
  (data.foldl crc32Byte 0xFFFFFFFF) ^^^ 0xFFFFFFFF

/-- `UltrasoundSDK::validateCrc` (lines 90-98): `false` for buffers shorter
than the 32-byte header, otherwise compare the CRC-32 of the bytes from
offset 28 to the end against the expected value. -/
def validateCrc (data : List ℕ) (expectedCrc : ℕ) : Bool :=
  if data.length < HEADER_SIZE then false
  else calculateCrc32 (data.drop 28) == expectedCrc

/-! ## Frames and extraction -/

/-- `cv::Mat(height, width, CV_8UC1)`: a rows×cols single-channel 8-bit
matrix, stored as its flat row-major byte buffer, exactly as `cv::Mat`
stores it. -/
structure Mat where
  rows : ℕ
  cols : ℕ
  data : List ℕ
deriving DecidableEq, Repr

/-- `memcpy(dst, src, n)` into a freshly allocated buffer `dst`: the first
`n` source bytes land at the start of `dst`.  Bytes that would land past the
end of `dst` are dropped in the model — at such inputs the real `memcpy` is
a heap overflow (undefined behavior); the safety theorem delimits the
in-bounds regime. -/
def memcpyInto (dst src : List ℕ) (n : ℕ) : List ℕ :=
  src.take (min n dst.length) ++ dst.drop (min n dst.length)

/-- `UltrasoundSDK::extractFrameData` (lines 72-84): allocate a
`height × width` CV_8UC1 matrix and `memcpy` `getFrameDataSize` bytes of
payload (starting at offset 32) into its buffer.  The freshly allocated
buffer's uninitialized bytes are modelled as 0. -/
def extractFrameData (data : List ℕ) (h : UltraHeader) : Mat :=
  { rows := h.height
    cols := h.width
    data := memcpyInto (List.replicate (h.width * h.height) 0)
              (data.drop HEADER_SIZE) h.getFrameDataSize }

/-- Number of payload bytes the `memcpy` in `extractFrameData` reads from
the input (source length argument, line 81). -/
def extractReadCount (h : UltraHeader) : ℕ := h.getFrameDataSize

/-- Byte capacity of the destination matrix allocated by
`extractFrameData` (line 78): `width * height` bytes. -/
def matByteCapacity (h : UltraHeader) : ℕ := h.width * h.height

/-- The error taxonomy of the core (§7 of the spec).  The C++ code throws
`std::runtime_error` with distinct messages; the spec names them
FormatError ("Data too small to contain header"), InvalidHeaderError
("Invalid header: magic ID mismatch"), SizeMismatchError ("Data size
mismatch"), EmptyFrameError ("Empty frame") and NotImplementedError
("AI inference not yet implemented"). -/
inductive UltraError where
  | formatError
  | invalidHeader
  | sizeMismatch
  | emptyFrame
  | notImplemented
deriving DecidableEq, Repr

/-- `UltrasoundSDK::loadFrameFromBytes` (lines 100-130): length guard,
header parse, header validation, size check, CRC comparison whose result is
discarded (lines 119-124 — the `if` body is empty), then payload
extraction. -/
def loadFrameFromBytes (data : List ℕ) : Except UltraError (UltraHeader × Mat) :=
  if data.length < HEADER_SIZE then .error .formatError
  else
    let header := parseHeader data
    if ¬ header.isValid then .error .invalidHeader
    else if data.length < HEADER_SIZE + header.getFrameDataSize then .error .sizeMismatch
    else
      -- CRC validated but the result is unused (source lines 119-124).
      let _ := validateCrc data header.crc
      .ok (header, extractFrameData data header)

/-- Modelled from the spec: `encode(header, payload)` — the spec's §6 table
and the round-trip law reference an encoder that the repository does not
contain (it only ships the decoder).  32 bytes: the nine fields written
little-endian at offsets 0,4,6,8,10,12,16,24,28. -/
def encodeHeader (h : UltraHeader) : List ℕ :=
  writeLE h.magicId 4 ++ writeLE h.width 2 ++ writeLE h.height 2 ++
  writeLE h.depth 2 ++ writeLE h.bytesPerVoxel 2 ++ writeLE h.frameNumber 4 ++
  writeLE h.timestamp 8 ++ writeLE h.reserved 4 ++ writeLE h.crc 4

/-! ## Filter pipeline (ultrasound_core.cpp lines 152-226)

The pipeline operates on CV_8UC1 matrices throughout: every OpenCV stage
here writes back with `saturate_cast<uchar>` after `cvRound`, so values
stay 8-bit between stages.  `cvRound` rounds half to even. -/

/-- `cvRound`: round to nearest, ties to even. -/
def rnd (q : ℚ) : ℤ :=
  let f := ⌊q⌋
  if q - f < 1 / 2 then f
  else if 1 / 2 < q - f then f + 1
  else if f % 2 = 0 then f else f + 1

/-- `saturate_cast<uchar>`: clamp to [0, 255]. -/
def saturate8 (x : ℤ) : ℕ := (max 0 (min 255 x)).toNat

/-- Minimum entry of a byte buffer (`cv::minMaxLoc` inside
`cv::normalize(..., NORM_MINMAX)`; the pipeline only sees non-empty
matrices). -/
def listMin : List ℕ → ℕ
  | [] => 0
  | x :: xs => xs.foldl min x

/-- Maximum entry of a byte buffer (`cv::minMaxLoc`). -/
def listMax : List ℕ → ℕ
  | [] => 0
  | x :: xs => xs.foldl max x

/-- `UltrasoundSDK::normalizeIntensity` (lines 152-156) and the final clamp
(line 222): `cv::normalize(frame, dst, 0, 255, NORM_MINMAX)` on an 8-bit
matrix.  OpenCV computes `scale = (255 - 0) / (max - min)` when the
extrema differ (for integer data, distinct extrema differ by at least 1,
which exceeds `DBL_EPSILON`) and `scale = 0` otherwise,
`shift = 0 - min * scale`, then writes `saturate_cast<uchar>(cvRound(x *
scale + shift))`. -/
def normalizeIntensity (m : Mat) : Mat :=
  let lo : ℚ := listMin m.data
  let hi : ℚ := listMax m.data
  let scale : ℚ := if lo < hi then 255 / (hi - lo) else 0
  let shift : ℚ := 0 - lo * scale
  { m with data := m.data.map (fun (x : ℕ) => saturate8 (rnd ((x : ℚ) * scale + shift))) }

/-- `UltrasoundSDK::applyGain` (lines 166-170):
`frame.convertTo(gained, -1, gain, 0)` — per-sample multiply with
saturation, staying 8-bit (`rtype = -1`). -/
def applyGain (m : Mat) (gain : ℚ) : Mat :=
  { m with data := m.data.map (fun (x : ℕ) => saturate8 (rnd ((x : ℚ) * gain))) }

/-- Pixel fetch from the flat row-major buffer (`frame.data[i*cols + j]`). -/
def Mat.byteAt (m : Mat) (i j : ℕ) : ℕ :=
  m.data.getD (i * m.cols + j) 0

/-- Border handling for neighborhood filters: clamp an index into
`[0, n-1]`, the replicate border of the modelled smoothing filters. -/
def clampIdx (n : ℕ) (x : ℤ) : ℕ :=
  if x < 0 then 0 else if (n : ℤ) ≤ x then n - 1 else x.toNat

/-- The (2r+1)×(2r+1) neighborhood of pixel (i, j), borders clamped. -/
def windowVals (m : Mat) (r i j : ℕ) : List ℕ :=
  (List.range (2 * r + 1)).flatMap (fun di =>
    (List.range (2 * r + 1)).map (fun dj =>
      m.byteAt (clampIdx m.rows ((i : ℤ) + di - r)) (clampIdx m.cols ((j : ℤ) + dj - r))))

/-- Modelled from the spec: the smoothing kernels of the OpenCV library
calls (`cv::GaussianBlur`, `cv::fastNlMeansDenoising`) are library
internals, not code of this repository.  Per §4.2 each is a local
neighborhood smoothing that preserves the matrix dimensions; modelled as
the normalized average of the (2r+1)-neighborhood with clamped borders,
written back through `saturate_cast<uchar>(cvRound(·))`. -/
def boxBlur (m : Mat) (r : ℕ) : Mat :=
  { rows := m.rows, cols := m.cols,
    data := (List.range (m.rows * m.cols)).map (fun (idx : ℕ) =>
      saturate8 (rnd ((((windowVals m r (idx / m.cols) (idx % m.cols)).sum : ℕ) : ℚ) /
        ((2 * r + 1) ^ 2 : ℚ)))) }

/-- `UltrasoundSDK::applyDenoise` (lines 158-164):
`cv::fastNlMeansDenoising(frame, dst, 10, 7, 21)`.  Modelled from the
spec (§4.2 stage 3): fixed-parameter noise reduction with template window
7, i.e. radius 3; see `boxBlur` for the modelling note. -/
def applyDenoise (m : Mat) : Mat := boxBlur m 3

/-- The blur stage of `applyFilters` (lines 205-208):
`cv::GaussianBlur(processed, processed, Size(k, k), 0)`.  Modelled from
the spec (§4.2 stage 4): isotropic blur with kernel extent `k`, radius
`k / 2`; see `boxBlur` for the modelling note. -/
def gaussianBlurFilter (m : Mat) (k : ℤ) : Mat := boxBlur m (k.toNat / 2)

/-- `UltrasoundSDK::applySharpen` (lines 172-180): blur a copy with
sigma 3 (modelled per §4.2 stage 5, see `boxBlur`), then
`cv::addWeighted(frame, 1 + amount, blurred, -amount, 0)`:
`saturate_cast<uchar>(cvRound(x * (1 + amount) - y * amount))`. -/
def applySharpen (m : Mat) (amount : ℚ) : Mat :=
  let blurred := boxBlur m 3
  { rows := m.rows, cols := m.cols,
    data := (m.data.zip blurred.data).map (fun (q : ℕ × ℕ) =>
      saturate8 (rnd ((1 + amount) * (q.1 : ℚ) - amount * (q.2 : ℚ)))) }

/-- The contrast stage (lines 216-218):
`processed.convertTo(processed, -1, contrastAlpha, contrastBeta)`. -/
def convertToAffine (m : Mat) (alpha : ℚ) (beta : ℤ) : Mat :=
  { m with data := m.data.map (fun (x : ℕ) => saturate8 (rnd (alpha * (x : ℚ) + (beta : ℚ)))) }

/-- `clamped.convertTo(processed, CV_8UC1)` (line 223): an 8-bit to 8-bit
conversion, a saturating copy. -/
def convertTo8U (m : Mat) : Mat :=
  { m with data := m.data.map (fun (x : ℕ) => saturate8 (x : ℤ)) }

/-- The unconditional terminal stage of `applyFilters` (lines 220-223):
`cv::normalize(processed, clamped, 0, 255, NORM_MINMAX)` followed by
`clamped.convertTo(processed, CV_8UC1)`. -/
def finalRescale (m : Mat) : Mat := convertTo8U (normalizeIntensity m)

/-- `struct ProcessingParams` (ultrasound_core.h lines 49-72) with its
default member values.  The C++ `float`/`int` fields are modelled as
`ℚ`/`ℤ`. -/
structure ProcessingParams where
  normalize : Bool := true
  denoise : Bool := true
  gain : ℚ := 1
  gaussianBlur : Bool := false
  blurKernelSize : ℤ := 3
  sharpen : Bool := false
  sharpenAmount : ℚ := 1
  contrastAlpha : ℚ := 1
  contrastBeta : ℤ := 0
  enableAiPreprocessing : Bool := false
deriving DecidableEq, Repr

/-- The seven pipeline stages of `applyFilters`, in source order. -/
inductive Stage where
  | normalize
  | gain
  | denoise
  | blur
  | sharpen
  | contrast
  | rescale
deriving DecidableEq, Repr

/-- The transform each stage applies (the body of the corresponding
branch of `applyFilters`). -/
def runStage (p : ProcessingParams) (m : Mat) : Stage → Mat
  | .normalize => normalizeIntensity m
  | .gain => applyGain m p.gain
  | .denoise => applyDenoise m
  | .blur => gaussianBlurFilter m p.blurKernelSize
  | .sharpen => applySharpen m p.sharpenAmount
  | .contrast => convertToAffine m p.contrastAlpha p.contrastBeta
  | .rescale => finalRescale m

/-- The sequence of stages `applyFilters` executes, with exactly the
source's guard conditions (lines 190, 195, 200, 205, 211, 216) in the
source's order, ending in the unconditional rescale (lines 220-223). -/
def stageTrace (p : ProcessingParams) : List Stage :=
  (if p.normalize then [Stage.normalize] else []) ++
  (if p.gain ≠ 1 then [Stage.gain] else []) ++
  (if p.denoise then [Stage.denoise] else []) ++
  (if p.gaussianBlur ∧ 0 < p.blurKernelSize then [Stage.blur] else []) ++
  (if p.sharpen then [Stage.sharpen] else []) ++
  (if p.contrastAlpha ≠ 1 ∨ p.contrastBeta ≠ 0 then [Stage.contrast] else []) ++
  [Stage.rescale]

/-- The source's gate condition for each stage, as a Boolean predicate. -/
def codeGate (p : ProcessingParams) : Stage → Bool
  | .normalize => p.normalize
  | .gain => decide (p.gain ≠ 1)
  | .denoise => p.denoise
  | .blur => decide (p.gaussianBlur ∧ 0 < p.blurKernelSize)
  | .sharpen => p.sharpen
  | .contrast => decide (p.contrastAlpha ≠ 1 ∨ p.contrastBeta ≠ 0)
  | .rescale => true

/-- The gate conditions as the specification words them (§4.2): identical
to `codeGate` except that the Gaussian-blur gate additionally requires the
kernel size to be odd ("must be odd and > 0 ... Runs if `gaussianBlur` is
set and kernel size valid"). -/
def specGate (p : ProcessingParams) : Stage → Bool
  | .blur => decide (p.gaussianBlur ∧ 0 < p.blurKernelSize ∧ p.blurKernelSize % 2 = 1)
  | s => codeGate p s

/-- The fixed stage order of §4.2. -/
def fixedOrder : List Stage :=
  [Stage.normalize, Stage.gain, Stage.denoise, Stage.blur,
   Stage.sharpen, Stage.contrast, Stage.rescale]

/-- `UltrasoundSDK::applyFilters` (lines 182-226): empty-frame guard
(`cv::Mat::empty()`, i.e. zero total), then the six gated stages on a
clone of the input, then the unconditional clamp/rescale. -/
def applyFilters (frame : Mat) (params : ProcessingParams) : Except UltraError Mat :=
  if frame.rows * frame.cols = 0 then .error .emptyFrame
  else
    let p1 := if params.normalize then normalizeIntensity frame else frame
    let p2 := if params.gain ≠ 1 then applyGain p1 params.gain else p1
    let p3 := if params.denoise then applyDenoise p2 else p2
    let p4 := if params.gaussianBlur ∧ 0 < params.blurKernelSize then
        gaussianBlurFilter p3 params.blurKernelSize else p3
    let p5 := if params.sharpen then applySharpen p4 params.sharpenAmount else p4
    let p6 := if params.contrastAlpha ≠ 1 ∨ params.contrastBeta ≠ 0 then
        convertToAffine p5 params.contrastAlpha params.contrastBeta else p5
    .ok (finalRescale p6)

/-- `UltrasoundSDK::runAiInference` (lines 238-252): unconditionally
throws ("AI inference not yet implemented"); the commented-out
pass-through of the input frame is dead text, not code. -/
def runAiInference (_frame : Mat) (_modelPath : String) : Except UltraError Mat :=
  .error .notImplemented

/-- Dimension-and-wellformedness preservation of a matrix transform:
rows and cols are kept, and a buffer of size rows*cols maps to a buffer
of size rows*cols. -/
def DimsOK (f : Mat → Mat) : Prop :=
  ∀ m : Mat, (f m).rows = m.rows ∧ (f m).cols = m.cols ∧
    (m.data.length = m.rows * m.cols → (f m).data.length = m.rows * m.cols)

end Ultrasound

deriving instance DecidableEq for Except

namespace Ultrasound

theorem writeLE_length (v n : ℕ) : (writeLE v n).length = n := by
  induction n generalizing v with
  | zero => rfl
  | succ n ih => simp [writeLE, ih]

theorem bytesToNat_writeLE (n v : ℕ) : bytesToNat (writeLE v n) = v % 256 ^ n := by
  induction n generalizing v with
  | zero => simp [writeLE, bytesToNat, Nat.mod_one]
  | succ n ih =>
    rw [pow_succ', Nat.mod_mul]
    simp [writeLE, bytesToNat, ih]

theorem readLE_append_chunk (pre c t : List ℕ) (k n : ℕ)
    (hpre : pre.length = k) (hc : c.length = n) :
    readLE (pre ++ (c ++ t)) k n = bytesToNat c := by
  unfold readLE
  rw [List.drop_left' hpre, List.take_left' hc]

theorem parseHeader_encodeHeader (h : UltraHeader) (rest : List ℕ)
    (h1 : h.magicId < 2 ^ 32) (h2 : h.width < 2 ^ 16) (h3 : h.height < 2 ^ 16)
    (h4 : h.depth < 2 ^ 16) (h5 : h.bytesPerVoxel < 2 ^ 16)
    (h6 : h.frameNumber < 2 ^ 32) (h7 : h.timestamp < 2 ^ 64)
    (h8 : h.reserved < 2 ^ 32) (h9 : h.crc < 2 ^ 32) :
    parseHeader (encodeHeader h ++ rest) = h := by
  obtain ⟨m, w, ht, dp, bv, fn, ts, rs, cr⟩ := h
  simp only at h1 h2 h3 h4 h5 h6 h7 h8 h9
  have fm : readLE (encodeHeader ⟨m, w, ht, dp, bv, fn, ts, rs, cr⟩ ++ rest) 0 4 = m := by
    rw [show encodeHeader ⟨m, w, ht, dp, bv, fn, ts, rs, cr⟩ ++ rest =
        ([] : List ℕ) ++ (writeLE m 4 ++ (writeLE w 2 ++ writeLE ht 2 ++ writeLE dp 2 ++
          writeLE bv 2 ++ writeLE fn 4 ++ writeLE ts 8 ++ writeLE rs 4 ++ writeLE cr 4 ++ rest))
      from by simp [encodeHeader, List.append_assoc],
      readLE_append_chunk _ _ _ _ _ (by simp) (writeLE_length _ _), bytesToNat_writeLE]
    exact Nat.mod_eq_of_lt (h1.trans_eq (by norm_num))
  have fw : readLE (encodeHeader ⟨m, w, ht, dp, bv, fn, ts, rs, cr⟩ ++ rest) 4 2 = w := by
    rw [show encodeHeader ⟨m, w, ht, dp, bv, fn, ts, rs, cr⟩ ++ rest =
        writeLE m 4 ++ (writeLE w 2 ++ (writeLE ht 2 ++ writeLE dp 2 ++
          writeLE bv 2 ++ writeLE fn 4 ++ writeLE ts 8 ++ writeLE rs 4 ++ writeLE cr 4 ++ rest))
      from by simp [encodeHeader, List.append_assoc],
      readLE_append_chunk _ _ _ _ _ (by simp [writeLE_length]) (writeLE_length _ _),
      bytesToNat_writeLE]
    exact Nat.mod_eq_of_lt (h2.trans_eq (by norm_num))
  have fh : readLE (encodeHeader ⟨m, w, ht, dp, bv, fn, ts, rs, cr⟩ ++ rest) 6 2 = ht := by
    rw [show encodeHeader ⟨m, w, ht, dp, bv, fn, ts, rs, cr⟩ ++ rest =
        (writeLE m 4 ++ writeLE w 2) ++ (writeLE ht 2 ++ (writeLE dp 2 ++
          writeLE bv 2 ++ writeLE fn 4 ++ writeLE ts 8 ++ writeLE rs 4 ++ writeLE cr 4 ++ rest))
      from by simp [encodeHeader, List.append_assoc],
      readLE_append_chunk _ _ _ _ _ (by simp [writeLE_length]) (writeLE_length _ _),
      bytesToNat_writeLE]
    exact Nat.mod_eq_of_lt (h3.trans_eq (by norm_num))
  have fd : readLE (encodeHeader ⟨m, w, ht, dp, bv, fn, ts, rs, cr⟩ ++ rest) 8 2 = dp := by
    rw [show encodeHeader ⟨m, w, ht, dp, bv, fn, ts, rs, cr⟩ ++ rest =
        (writeLE m 4 ++ writeLE w 2 ++ writeLE ht 2) ++ (writeLE dp 2 ++ (writeLE bv 2 ++
          writeLE fn 4 ++ writeLE ts 8 ++ writeLE rs 4 ++ writeLE cr 4 ++ rest))
      from by simp [encodeHeader, List.append_assoc],
      readLE_append_chunk _ _ _ _ _ (by simp [writeLE_length]) (writeLE_length _ _),
      bytesToNat_writeLE]
    exact Nat.mod_eq_of_lt (h4.trans_eq (by norm_num))
  have fb : readLE (encodeHeader ⟨m, w, ht, dp, bv, fn, ts, rs, cr⟩ ++ rest) 10 2 = bv := by
    rw [show encodeHeader ⟨m, w, ht, dp, bv, fn, ts, rs, cr⟩ ++ rest =
        (writeLE m 4 ++ writeLE w 2 ++ writeLE ht 2 ++ writeLE dp 2) ++ (writeLE bv 2 ++
          (writeLE fn 4 ++ writeLE ts 8 ++ writeLE rs 4 ++ writeLE cr 4 ++ rest))
      from by simp [encodeHeader, List.append_assoc],
      readLE_append_chunk _ _ _ _ _ (by simp [writeLE_length]) (writeLE_length _ _),
      bytesToNat_writeLE]
    exact Nat.mod_eq_of_lt (h5.trans_eq (by norm_num))
  have ffn : readLE (encodeHeader ⟨m, w, ht, dp, bv, fn, ts, rs, cr⟩ ++ rest) 12 4 = fn := by
    rw [show encodeHeader ⟨m, w, ht, dp, bv, fn, ts, rs, cr⟩ ++ rest =
        (writeLE m 4 ++ writeLE w 2 ++ writeLE ht 2 ++ writeLE dp 2 ++ writeLE bv 2) ++
          (writeLE fn 4 ++ (writeLE ts 8 ++ writeLE rs 4 ++ writeLE cr 4 ++ rest))
      from by simp [encodeHeader, List.append_assoc],
      readLE_append_chunk _ _ _ _ _ (by simp [writeLE_length]) (writeLE_length _ _),
      bytesToNat_writeLE]
    exact Nat.mod_eq_of_lt (h6.trans_eq (by norm_num))
  have fts : readLE (encodeHeader ⟨m, w, ht, dp, bv, fn, ts, rs, cr⟩ ++ rest) 16 8 = ts := by
    rw [show encodeHeader ⟨m, w, ht, dp, bv, fn, ts, rs, cr⟩ ++ rest =
        (writeLE m 4 ++ writeLE w 2 ++ writeLE ht 2 ++ writeLE dp 2 ++ writeLE bv 2 ++
          writeLE fn 4) ++ (writeLE ts 8 ++ (writeLE rs 4 ++ writeLE cr 4 ++ rest))
      from by simp [encodeHeader, List.append_assoc],
      readLE_append_chunk _ _ _ _ _ (by simp [writeLE_length]) (writeLE_length _ _),
      bytesToNat_writeLE]
    exact Nat.mod_eq_of_lt (h7.trans_eq (by norm_num))
  have frs : readLE (encodeHeader ⟨m, w, ht, dp, bv, fn, ts, rs, cr⟩ ++ rest) 24 4 = rs := by
    rw [show encodeHeader ⟨m, w, ht, dp, bv, fn, ts, rs, cr⟩ ++ rest =
        (writeLE m 4 ++ writeLE w 2 ++ writeLE ht 2 ++ writeLE dp 2 ++ writeLE bv 2 ++
          writeLE fn 4 ++ writeLE ts 8) ++ (writeLE rs 4 ++ (writeLE cr 4 ++ rest))
      from by simp [encodeHeader, List.append_assoc],
      readLE_append_chunk _ _ _ _ _ (by simp [writeLE_length]) (writeLE_length _ _),
      bytesToNat_writeLE]
    exact Nat.mod_eq_of_lt (h8.trans_eq (by norm_num))
  have fcr : readLE (encodeHeader ⟨m, w, ht, dp, bv, fn, ts, rs, cr⟩ ++ rest) 28 4 = cr := by
    rw [show encodeHeader ⟨m, w, ht, dp, bv, fn, ts, rs, cr⟩ ++ rest =
        (writeLE m 4 ++ writeLE w 2 ++ writeLE ht 2 ++ writeLE dp 2 ++ writeLE bv 2 ++
          writeLE fn 4 ++ writeLE ts 8 ++ writeLE rs 4) ++ (writeLE cr 4 ++ rest)
      from by simp [encodeHeader, List.append_assoc],
      readLE_append_chunk _ _ _ _ _ (by simp [writeLE_length]) (writeLE_length _ _),
      bytesToNat_writeLE]
    exact Nat.mod_eq_of_lt (h9.trans_eq (by norm_num))
  simp only [parseHeader, UltraHeader.mk.injEq]
  exact ⟨fm, fw, fh, fd, fb, ffn, fts, frs, fcr⟩


/-- C1 (amended): for every valid header whose depth and bytesPerSample are 1
(the format-in-practice values noted in §4.1) and whose fields are in the
range of their C++ widths, and every payload of length
width*height*depth*bytesPerSample, decoding the concatenation of the 32-byte
little-endian header encoding and the payload succeeds and returns a header
with the identical nine fields and a height×width matrix whose byte content
equals the payload. -/
theorem decode_encode_roundtrip (h : UltraHeader) (payload : List ℕ)
    (hv : h.isValid) (hdep : h.depth = 1) (hbv : h.bytesPerVoxel = 1)
    (hw : h.width < 2 ^ 16) (hh : h.height < 2 ^ 16)
    (hfn : h.frameNumber < 2 ^ 32) (hts : h.timestamp < 2 ^ 64)
    (hrs : h.reserved < 2 ^ 32) (hcr : h.crc < 2 ^ 32)
    (_hbytes : ∀ b ∈ payload, b < 256)
    (hp : payload.length = h.getFrameDataSize) :
    loadFrameFromBytes (encodeHeader h ++ payload) =
      Except.ok (h, { rows := h.height, cols := h.width, data := payload }) := by
  have hmagic : h.magicId < 2 ^ 32 := by rw [hv.1]; norm_num [MAGIC_ID]
  have hdp : h.depth < 2 ^ 16 := by rw [hdep]; norm_num
  have hbv2 : h.bytesPerVoxel < 2 ^ 16 := by rw [hbv]; norm_num
  have hparse := parseHeader_encodeHeader h payload hmagic hw hh hdp hbv2 hfn hts hrs hcr
  have hlen : (encodeHeader h).length = 32 := by simp [encodeHeader, writeLE_length]
  have hfs : h.getFrameDataSize = h.width * h.height := by
    simp [UltraHeader.getFrameDataSize, hdep, hbv]
  have hlen2 : (encodeHeader h ++ payload).length = 32 + payload.length := by
    simp [hlen, Nat.add_comm]
  simp only [loadFrameFromBytes, HEADER_SIZE, hparse, hlen2]
  rw [if_neg (by omega), if_neg (not_not_intro hv), if_neg (by omega)]
  simp only [extractFrameData, HEADER_SIZE, List.drop_left' hlen, memcpyInto]
  have hmin : min h.getFrameDataSize (List.replicate (h.width * h.height) (0 : ℕ)).length =
      payload.length := by
    simp [List.length_replicate, hfs, hp]
  rw [hmin, List.take_length, List.drop_eq_nil_of_le (by simp [List.length_replicate, hfs, hp])]
  simp

/-- C1 witness: a concrete 2×1 frame round-trips exactly. -/
theorem decode_encode_roundtrip_witness :
    loadFrameFromBytes (encodeHeader (UltraHeader.mk MAGIC_ID 2 1 1 1 5 6 0 0) ++ [10, 20]) =
      Except.ok (UltraHeader.mk MAGIC_ID 2 1 1 1 5 6 0 0, Mat.mk 1 2 [10, 20]) :=
  decode_encode_roundtrip _ _ (by decide) rfl rfl (by norm_num) (by norm_num) (by norm_num)
    (by norm_num) (by norm_num) (by norm_num) (by decide) (by decide)

/-- C1 counterexample: the claim quantifies over EVERY valid header, but
header validity does not force depth = 1.  For the valid header with
width = height = bytesPerVoxel = 1 and depth = 2 and the 2-byte payload
[7, 9] (length = frameDataSize), decoding the encoded frame yields a 1×1
matrix whose byte content is [7], not the payload — the C++ `memcpy` at this
input writes 2 bytes into a 1-byte matrix buffer (heap overflow), so the
round-trip law fails outside depth*bytesPerSample = 1. -/
theorem roundtrip_false_for_depth_two :
    (UltraHeader.mk MAGIC_ID 1 1 2 1 0 0 0 0).isValid ∧
    ([7, 9] : List ℕ).length = (UltraHeader.mk MAGIC_ID 1 1 2 1 0 0 0 0).getFrameDataSize ∧
    loadFrameFromBytes (encodeHeader (UltraHeader.mk MAGIC_ID 1 1 2 1 0 0 0 0) ++ [7, 9]) =
      Except.ok (UltraHeader.mk MAGIC_ID 1 1 2 1 0 0 0 0, Mat.mk 1 1 [7]) ∧
    ([7] : List ℕ) ≠ [7, 9] := by decide

/-- C3: for every input of length at least 32 whose parsed header is valid
and whose length covers 32 + frameDataSize, decoding succeeds and returns
exactly the parsed header and extracted matrix.  No hypothesis about the
stored checksum or `validateCrc` appears: the result is the same whether or
not the stored checksum field matches the CRC-32 of the bytes from offset
28 to the end (source lines 119-124 discard the comparison), so a mismatch
is never surfaced as an error. -/
theorem decode_ignores_checksum (data : List ℕ)
    (hlen : HEADER_SIZE ≤ data.length)
    (hvalid : (parseHeader data).isValid)
    (hsize : HEADER_SIZE + (parseHeader data).getFrameDataSize ≤ data.length) :
    loadFrameFromBytes data =
      Except.ok (parseHeader data, extractFrameData data (parseHeader data)) := by
  simp only [loadFrameFromBytes, HEADER_SIZE] at *
  rw [if_neg (by omega), if_neg (not_not_intro hvalid), if_neg (by omega)]

/-- C3 witness: a concrete frame whose stored checksum field (0) does not
match the CRC-32 of its offset-28 suffix, yet decoding succeeds. -/
theorem decode_ignores_checksum_witness :
    loadFrameFromBytes (encodeHeader (UltraHeader.mk MAGIC_ID 1 1 1 1 0 0 0 0) ++ [3]) =
      Except.ok (parseHeader (encodeHeader (UltraHeader.mk MAGIC_ID 1 1 1 1 0 0 0 0) ++ [3]),
        extractFrameData (encodeHeader (UltraHeader.mk MAGIC_ID 1 1 1 1 0 0 0 0) ++ [3])
          (parseHeader (encodeHeader (UltraHeader.mk MAGIC_ID 1 1 1 1 0 0 0 0) ++ [3]))) :=
  decode_ignores_checksum _ (by decide) (by decide) (by decide)

/-- C4: on every input accepted by the decoder whose header has depth = 1
and bytesPerSample = 1, the extraction memcpy reads exactly width*height
payload bytes starting at offset 32, all inside the input buffer
(32 + readCount ≤ length), writes them inside the width*height-byte matrix
buffer (readCount ≤ capacity), and the matrix content is exactly those
bytes; moreover header validation alone does not guarantee
depth * bytesPerSample = 1 (a valid header with depth = 2 exists), so the
in-bounds guarantee genuinely needs the depth/bytesPerSample precondition. -/
theorem extractFrameData_inbounds (data : List ℕ) (hdr : UltraHeader) (mat : Mat)
    (hacc : loadFrameFromBytes data = Except.ok (hdr, mat))
    (hdep : hdr.depth = 1) (hbv : hdr.bytesPerVoxel = 1) :
    extractReadCount hdr = hdr.width * hdr.height ∧
    HEADER_SIZE + extractReadCount hdr ≤ data.length ∧
    extractReadCount hdr ≤ matByteCapacity hdr ∧
    mat.rows = hdr.height ∧ mat.cols = hdr.width ∧
    mat.data = (data.drop HEADER_SIZE).take (hdr.width * hdr.height) ∧
    mat.data.length = hdr.width * hdr.height ∧
    ∃ h' : UltraHeader, h'.isValid ∧ h'.depth * h'.bytesPerVoxel ≠ 1 := by
  simp only [loadFrameFromBytes] at hacc
  by_cases g1 : data.length < HEADER_SIZE
  · rw [if_pos g1] at hacc
    exact absurd hacc (by simp)
  rw [if_neg g1] at hacc
  by_cases g2 : (parseHeader data).isValid
  case neg =>
    rw [if_pos g2] at hacc
    exact absurd hacc (by simp)
  rw [if_neg (not_not_intro g2)] at hacc
  by_cases g3 : data.length < HEADER_SIZE + (parseHeader data).getFrameDataSize
  · rw [if_pos g3] at hacc
    exact absurd hacc (by simp)
  rw [if_neg g3] at hacc
  simp only [Except.ok.injEq, Prod.mk.injEq] at hacc
  obtain ⟨hph, hmat⟩ := hacc
  subst hph
  subst hmat
  have hfs : (parseHeader data).getFrameDataSize =
      (parseHeader data).width * (parseHeader data).height := by
    simp [UltraHeader.getFrameDataSize, hdep, hbv]
  have hrc : extractReadCount (parseHeader data) =
      (parseHeader data).width * (parseHeader data).height := by
    simp [extractReadCount, hfs]
  refine ⟨hrc, ?_, ?_, rfl, rfl, ?_, ?_, ⟨UltraHeader.mk MAGIC_ID 1 1 2 1 0 0 0 0,
    by decide, by decide⟩⟩
  · simp only [HEADER_SIZE] at g3 ⊢
    rw [hrc, ← hfs]
    omega
  · rw [hrc]; simp [matByteCapacity]
  · have hdl : (List.replicate ((parseHeader data).width * (parseHeader data).height)
        (0 : ℕ)).length ≤ (parseHeader data).width * (parseHeader data).height := by simp
    simp only [extractFrameData, memcpyInto, List.length_replicate, hfs]
    rw [min_self, List.drop_eq_nil_of_le hdl, List.append_nil]
  · simp only [extractFrameData, memcpyInto, List.length_replicate, List.length_append,
      List.length_take, List.length_drop, hfs, HEADER_SIZE]
    rw [hfs] at g3
    simp only [HEADER_SIZE] at g3
    omega

/-- C4 witness: a concrete accepted 33-byte frame with depth = 1,
bytesPerSample = 1. -/
theorem extractFrameData_inbounds_witness :
    extractReadCount (UltraHeader.mk MAGIC_ID 1 1 1 1 0 0 0 0) =
      (UltraHeader.mk MAGIC_ID 1 1 1 1 0 0 0 0).width *
        (UltraHeader.mk MAGIC_ID 1 1 1 1 0 0 0 0).height :=
  (extractFrameData_inbounds
    (encodeHeader (UltraHeader.mk MAGIC_ID 1 1 1 1 0 0 0 0) ++ [42])
    (UltraHeader.mk MAGIC_ID 1 1 1 1 0 0 0 0) (Mat.mk 1 1 [42]) (by decide) rfl rfl).1

/-- C6: for every byte sequence of length at least 32 and every expected
value, `validateCrc` returns true exactly when the CRC-32 (reflected
standard polynomial 0xEDB88320, zlib initial value and final complement)
of the bytes from offset 28 through the end equals the expected value.  It
is a total pure function of its arguments — identical inputs give identical
results by definition, and a mismatch yields `false`, never a failure. -/
theorem validateCrc_spec (data : List ℕ) (expected : ℕ)
    (hlen : HEADER_SIZE ≤ data.length) :
    validateCrc data expected = true ↔ calculateCrc32 (data.drop 28) = expected := by
  simp only [validateCrc, HEADER_SIZE] at *
  rw [if_neg (by omega)]
  exact beq_iff_eq ..

/-- C6 witness: a 32-byte zero buffer, whose offset-28 CRC-32 is
0x2144DF1C = 558161692. -/
theorem validateCrc_spec_witness :
    validateCrc (List.replicate 32 0) 558161692 = true :=
  (validateCrc_spec (List.replicate 32 0) 558161692 (by decide)).mpr (by decide)

/-- C7: for every input of length at least 32, decoding fails with
InvalidHeaderError exactly when the parsed magic differs from MAGIC_ID, or
the parsed width, height, or bytesPerSample is zero. -/
theorem decode_invalidHeader_iff (data : List ℕ)
    (hlen : HEADER_SIZE ≤ data.length) :
    loadFrameFromBytes data = Except.error UltraError.invalidHeader ↔
      ((parseHeader data).magicId ≠ MAGIC_ID ∨ (parseHeader data).width = 0 ∨
       (parseHeader data).height = 0 ∨ (parseHeader data).bytesPerVoxel = 0) := by
  simp only [loadFrameFromBytes, HEADER_SIZE] at *
  rw [if_neg (by omega)]
  by_cases hv : (parseHeader data).isValid
  · rw [if_neg (not_not_intro hv)]
    constructor
    · intro hcontra
      split_ifs at hcontra
      simp_all
    · intro hor
      obtain ⟨e1, e2, e3, e4⟩ := hv
      rcases hor with hh | hh | hh | hh
      all_goals omega
  · rw [if_pos hv]
    simp only [UltraHeader.isValid] at hv
    push_neg at hv
    constructor
    · intro _
      by_cases hm : (parseHeader data).magicId = MAGIC_ID
      · have := hv hm
        right
        omega
      · exact Or.inl hm
    · intro _
      rfl

/-- C7 witness: 32 zero bytes parse to magic 0 ≠ MAGIC_ID. -/
theorem decode_invalidHeader_iff_witness :
    loadFrameFromBytes (List.replicate 32 0) = Except.error UltraError.invalidHeader :=
  (decode_invalidHeader_iff (List.replicate 32 0) (by decide)).mpr (by decide)

/-- C8: for every input of length at least 32 with a valid parsed header,
decoding fails with SizeMismatchError exactly when the input length is
strictly below 32 + width*height*depth*bytesPerSample, and any input at
least that long is accepted (decoding returns a frame). -/
theorem decode_sizeMismatch_iff (data : List ℕ)
    (hlen : HEADER_SIZE ≤ data.length) (hvalid : (parseHeader data).isValid) :
    (loadFrameFromBytes data = Except.error UltraError.sizeMismatch ↔
      data.length < HEADER_SIZE + (parseHeader data).getFrameDataSize) ∧
    (HEADER_SIZE + (parseHeader data).getFrameDataSize ≤ data.length →
      loadFrameFromBytes data =
        Except.ok (parseHeader data, extractFrameData data (parseHeader data))) := by
  simp only [loadFrameFromBytes, HEADER_SIZE] at *
  rw [if_neg (by omega), if_neg (not_not_intro hvalid)]
  constructor
  · constructor
    · intro hc
      by_cases g : data.length < 32 + (parseHeader data).getFrameDataSize
      · exact g
      · rw [if_neg g] at hc
        simp at hc
    · intro hlt
      rw [if_pos hlt]
  · intro hge
    rw [if_neg (by omega)]

/-- C8 witness: a concrete 33-byte input (exactly 32 + frameDataSize) is
accepted. -/
theorem decode_sizeMismatch_iff_witness :
    loadFrameFromBytes (encodeHeader (UltraHeader.mk MAGIC_ID 1 1 1 1 0 0 0 0) ++ [9]) =
      Except.ok (parseHeader (encodeHeader (UltraHeader.mk MAGIC_ID 1 1 1 1 0 0 0 0) ++ [9]),
        extractFrameData (encodeHeader (UltraHeader.mk MAGIC_ID 1 1 1 1 0 0 0 0) ++ [9])
          (parseHeader (encodeHeader (UltraHeader.mk MAGIC_ID 1 1 1 1 0 0 0 0) ++ [9]))) :=
  (decode_sizeMismatch_iff _ (by decide) (by decide)).2 (by decide)

/-- C10: for every input frame and model path the AI hook fails with
NotImplementedError; in particular it never returns a frame, so it cannot
silently pass the input through. -/
theorem runAiInference_always_fails (frame : Mat) (modelPath : String) :
    runAiInference frame modelPath = Except.error UltraError.notImplemented ∧
    ∀ result : Mat, runAiInference frame modelPath ≠ Except.ok result :=
  ⟨rfl, fun _ hcontra => Except.noConfusion hcontra⟩


theorem saturate8_le (x : ℤ) : saturate8 x ≤ 255 := by
  unfold saturate8
  omega

theorem saturate8_coe (n : ℕ) (hn : n ≤ 255) : saturate8 (n : ℤ) = n := by
  unfold saturate8
  omega

theorem rnd_intCast (z : ℤ) : rnd (z : ℚ) = z := by
  simp [rnd, Int.floor_intCast]

theorem rnd_natCast (n : ℕ) : rnd (n : ℚ) = n := by
  have h := rnd_intCast (n : ℤ)
  rw [Int.cast_natCast] at h
  exact h

theorem foldl_min_le_init (xs : List ℕ) (a : ℕ) : xs.foldl min a ≤ a := by
  induction xs generalizing a with
  | nil => exact le_refl a
  | cons x xs ih => exact le_trans (ih (min a x)) (min_le_left a x)

theorem foldl_min_le {xs : List ℕ} {a b : ℕ} (hb : b ∈ xs) : xs.foldl min a ≤ b := by
  induction xs generalizing a with
  | nil => cases hb
  | cons x xs ih =>
    rcases List.mem_cons.mp hb with rfl | hb2
    · calc xs.foldl min (min a b) ≤ min a b := foldl_min_le_init xs (min a b)
        _ ≤ b := min_le_right a b
    · exact ih hb2

theorem init_le_foldl_max (xs : List ℕ) (a : ℕ) : a ≤ xs.foldl max a := by
  induction xs generalizing a with
  | nil => exact le_refl a
  | cons x xs ih => exact le_trans (le_max_left a x) (ih (max a x))

theorem le_foldl_max {xs : List ℕ} {a b : ℕ} (hb : b ∈ xs) : b ≤ xs.foldl max a := by
  induction xs generalizing a with
  | nil => cases hb
  | cons x xs ih =>
    rcases List.mem_cons.mp hb with rfl | hb2
    · calc b ≤ max a b := le_max_right a b
        _ ≤ xs.foldl max (max a b) := init_le_foldl_max xs (max a b)
    · exact ih hb2

theorem foldl_max_le {xs : List ℕ} {a c : ℕ} (ha : a ≤ c) (h : ∀ b ∈ xs, b ≤ c) :
    xs.foldl max a ≤ c := by
  induction xs generalizing a with
  | nil => exact ha
  | cons x xs ih =>
    exact ih (max_le ha (h x (List.mem_cons_self x xs)))
      (fun b hb => h b (List.mem_cons_of_mem x hb))

theorem listMin_eq_zero {l : List ℕ} (h0 : 0 ∈ l) : listMin l = 0 := by
  cases l with
  | nil => cases h0
  | cons x xs =>
    rcases List.mem_cons.mp h0 with hx | hxs
    · exact Nat.le_zero.mp (hx ▸ foldl_min_le_init xs x)
    · exact Nat.le_zero.mp (foldl_min_le hxs)

theorem listMax_eq_top {l : List ℕ} (h255 : 255 ∈ l) (hub : ∀ v ∈ l, v ≤ 255) :
    listMax l = 255 := by
  cases l with
  | nil => cases h255
  | cons x xs =>
    refine le_antisymm (foldl_max_le (hub x (List.mem_cons_self x xs))
      (fun b hb => hub b (List.mem_cons_of_mem x hb))) ?_
    rcases List.mem_cons.mp h255 with hx | hxs
    · exact hx ▸ init_le_foldl_max xs x
    · exact le_foldl_max hxs

theorem normalizeIntensity_fullrange (m : Mat) (h0 : 0 ∈ m.data) (h255 : 255 ∈ m.data)
    (hub : ∀ v ∈ m.data, v ≤ 255) : normalizeIntensity m = m := by
  obtain ⟨r, c, d⟩ := m
  simp only at h0 h255 hub
  simp only [normalizeIntensity, listMin_eq_zero h0, listMax_eq_top h255 hub, Mat.mk.injEq,
    true_and]
  refine (List.map_congr_left ?_).trans (List.map_id d)
  intro x hx
  have hscale : (if ((0 : ℕ) : ℚ) < ((255 : ℕ) : ℚ) then
      (255 : ℚ) / (((255 : ℕ) : ℚ) - ((0 : ℕ) : ℚ)) else 0) = 1 := by norm_num
  rw [hscale]
  norm_num
  rw [rnd_natCast, saturate8_coe x (hub x hx)]


theorem convertTo8U_of_le (m : Mat) (hub : ∀ v ∈ m.data, v ≤ 255) : convertTo8U m = m := by
  obtain ⟨r, c, d⟩ := m
  simp only at hub
  simp only [convertTo8U, Mat.mk.injEq, true_and]
  refine (List.map_congr_left ?_).trans (List.map_id d)
  intro x hx
  exact saturate8_coe x (hub x hx)

theorem finalRescale_fullrange (m : Mat) (h0 : 0 ∈ m.data) (h255 : 255 ∈ m.data)
    (hub : ∀ v ∈ m.data, v ≤ 255) : finalRescale m = m := by
  unfold finalRescale
  rw [normalizeIntensity_fullrange m h0 h255 hub]
  exact convertTo8U_of_le m hub

/-- C9: on a non-empty 8-bit matrix already spanning the full range
(0 and 255 both present, all values at most 255), `applyFilters` with only
normalize enabled returns the input unchanged — in particular it is
idempotent and a second application changes no sample value at all (zero
rounding error). -/
theorem applyFilters_normalize_idempotent (m : Mat) (p : ProcessingParams)
    (hne : m.rows * m.cols ≠ 0)
    (hub : ∀ v ∈ m.data, v ≤ 255) (h0 : 0 ∈ m.data) (h255 : 255 ∈ m.data)
    (hn : p.normalize = true) (hg : p.gain = 1) (hd : p.denoise = false)
    (hblur : p.gaussianBlur = false) (hsh : p.sharpen = false)
    (hca : p.contrastAlpha = 1) (hcb : p.contrastBeta = 0) :
    applyFilters m p = Except.ok m ∧
    ∀ m2 : Mat, applyFilters m p = Except.ok m2 → applyFilters m2 p = Except.ok m2 := by
  have hid : applyFilters m p = Except.ok m := by
    simp only [applyFilters, hn, hg, hd, hblur, hsh, hca, hcb]
    rw [if_neg hne]
    norm_num
    rw [normalizeIntensity_fullrange m h0 h255 hub, finalRescale_fullrange m h0 h255 hub]
  refine ⟨hid, fun m2 hm2 => ?_⟩
  rw [hid] at hm2
  obtain rfl : m = m2 := Except.ok.inj hm2
  exact hid

/-- C9 witness: the 1×2 matrix [0, 255] with only normalize enabled. -/
theorem applyFilters_normalize_idempotent_witness :
    applyFilters (Mat.mk 1 2 [0, 255]) { denoise := false } =
      Except.ok (Mat.mk 1 2 [0, 255]) :=
  (applyFilters_normalize_idempotent (Mat.mk 1 2 [0, 255]) { denoise := false }
    (by decide) (by decide) (by decide) (by decide) rfl rfl rfl rfl rfl rfl rfl).1


@[simp] theorem normalizeIntensity_rows (m : Mat) : (normalizeIntensity m).rows = m.rows := rfl

@[simp] theorem normalizeIntensity_cols (m : Mat) : (normalizeIntensity m).cols = m.cols := rfl

@[simp] theorem normalizeIntensity_length (m : Mat) :
    (normalizeIntensity m).data.length = m.data.length := by
  simp [normalizeIntensity]

@[simp] theorem applyGain_rows (m : Mat) (g : ℚ) : (applyGain m g).rows = m.rows := rfl

@[simp] theorem applyGain_cols (m : Mat) (g : ℚ) : (applyGain m g).cols = m.cols := rfl

@[simp] theorem applyGain_length (m : Mat) (g : ℚ) :
    (applyGain m g).data.length = m.data.length := by
  simp [applyGain]

@[simp] theorem boxBlur_rows (m : Mat) (r : ℕ) : (boxBlur m r).rows = m.rows := rfl

@[simp] theorem boxBlur_cols (m : Mat) (r : ℕ) : (boxBlur m r).cols = m.cols := rfl

@[simp] theorem boxBlur_length (m : Mat) (r : ℕ) :
    (boxBlur m r).data.length = m.rows * m.cols := by
  simp [boxBlur]

@[simp] theorem applyDenoise_rows (m : Mat) : (applyDenoise m).rows = m.rows := rfl

@[simp] theorem applyDenoise_cols (m : Mat) : (applyDenoise m).cols = m.cols := rfl

@[simp] theorem applyDenoise_length (m : Mat) :
    (applyDenoise m).data.length = m.rows * m.cols := by
  simp [applyDenoise]

@[simp] theorem gaussianBlurFilter_rows (m : Mat) (k : ℤ) :
    (gaussianBlurFilter m k).rows = m.rows := rfl

@[simp] theorem gaussianBlurFilter_cols (m : Mat) (k : ℤ) :
    (gaussianBlurFilter m k).cols = m.cols := rfl

@[simp] theorem gaussianBlurFilter_length (m : Mat) (k : ℤ) :
    (gaussianBlurFilter m k).data.length = m.rows * m.cols := by
  simp [gaussianBlurFilter]

@[simp] theorem applySharpen_rows (m : Mat) (a : ℚ) : (applySharpen m a).rows = m.rows := rfl

@[simp] theorem applySharpen_cols (m : Mat) (a : ℚ) : (applySharpen m a).cols = m.cols := rfl

@[simp] theorem applySharpen_length (m : Mat) (a : ℚ) :
    (applySharpen m a).data.length = min m.data.length (m.rows * m.cols) := by
  simp [applySharpen]

@[simp] theorem convertToAffine_rows (m : Mat) (a : ℚ) (b : ℤ) :
    (convertToAffine m a b).rows = m.rows := rfl

@[simp] theorem convertToAffine_cols (m : Mat) (a : ℚ) (b : ℤ) :
    (convertToAffine m a b).cols = m.cols := rfl

@[simp] theorem convertToAffine_length (m : Mat) (a : ℚ) (b : ℤ) :
    (convertToAffine m a b).data.length = m.data.length := by
  simp [convertToAffine]

@[simp] theorem convertTo8U_rows (m : Mat) : (convertTo8U m).rows = m.rows := rfl

@[simp] theorem convertTo8U_cols (m : Mat) : (convertTo8U m).cols = m.cols := rfl

@[simp] theorem convertTo8U_length (m : Mat) : (convertTo8U m).data.length = m.data.length := by
  simp [convertTo8U]

@[simp] theorem finalRescale_rows (m : Mat) : (finalRescale m).rows = m.rows := rfl

@[simp] theorem finalRescale_cols (m : Mat) : (finalRescale m).cols = m.cols := rfl

@[simp] theorem finalRescale_length (m : Mat) :
    (finalRescale m).data.length = m.data.length := by
  simp [finalRescale]

theorem finalRescale_data_le (m : Mat) : ∀ v ∈ (finalRescale m).data, v ≤ 255 := by
  intro v hv
  simp only [finalRescale, convertTo8U, List.mem_map] at hv
  obtain ⟨x, hx, rfl⟩ := hv
  exact saturate8_le _

theorem rescale_mem_stageTrace (p : ProcessingParams) : Stage.rescale ∈ stageTrace p := by
  simp [stageTrace]

/-- C5: for every non-empty well-formed matrix and every configuration,
`applyFilters` succeeds and returns a matrix with the same rows and cols, a
well-formed 8-bit buffer, and every sample value in [0, 255]; the rescale
stage is in every execution trace (it runs unconditionally). -/
theorem applyFilters_dims_range (m : Mat) (p : ProcessingParams)
    (hne : m.rows * m.cols ≠ 0) (hwf : m.data.length = m.rows * m.cols) :
    ∃ res : Mat, applyFilters m p = Except.ok res ∧ res.rows = m.rows ∧ res.cols = m.cols ∧
      res.data.length = res.rows * res.cols ∧ (∀ v ∈ res.data, v ≤ 255) ∧
      Stage.rescale ∈ stageTrace p := by
  simp only [applyFilters]
  rw [if_neg hne]
  split_ifs <;>
    exact ⟨_, rfl, by simp, by simp, by simp [hwf], finalRescale_data_le _,
      rescale_mem_stageTrace p⟩

/-- C5 witness: a 1×1 matrix under the default configuration. -/
theorem applyFilters_dims_range_witness :
    ∃ res : Mat, applyFilters (Mat.mk 1 1 [5]) ({} : ProcessingParams) = Except.ok res ∧
      res.rows = (Mat.mk 1 1 [5]).rows ∧ res.cols = (Mat.mk 1 1 [5]).cols ∧
      res.data.length = res.rows * res.cols ∧ (∀ v ∈ res.data, v ≤ 255) ∧
      Stage.rescale ∈ stageTrace ({} : ProcessingParams) :=
  applyFilters_dims_range (Mat.mk 1 1 [5]) {} (by decide) rfl

/-- C2 (amended): on every non-empty matrix, `applyFilters` computes
exactly the fold of the executed-stage trace, and that trace is precisely
the fixed order normalize, gain, denoise, blur, sharpen, contrast, rescale
filtered by the source gates: normalize iff the flag is set, gain iff
gain ≠ 1.0, denoise iff the flag is set, Gaussian blur iff the flag is set
and blurKernelSize > 0 (oddness is NOT checked by the code), sharpen iff
the flag is set, contrast iff contrastAlpha ≠ 1.0 or contrastBeta ≠ 0,
rescale always.  Being a filter of a fixed list, disabling a stage never
changes the relative order of the remaining enabled stages. -/
theorem applyFilters_stageTrace (m : Mat) (p : ProcessingParams)
    (hne : m.rows * m.cols ≠ 0) :
    applyFilters m p = Except.ok (List.foldl (runStage p) m (stageTrace p)) ∧
    stageTrace p = List.filter (codeGate p) fixedOrder := by
  constructor
  · simp only [applyFilters, stageTrace]
    rw [if_neg hne]
    split_ifs <;> rfl
  · have e1 : List.filter (codeGate p) [Stage.normalize] =
        (if p.normalize then [Stage.normalize] else []) := by
      cases h : p.normalize <;> simp [codeGate, List.filter, h]
    have e2 : List.filter (codeGate p) [Stage.gain] =
        (if p.gain ≠ 1 then [Stage.gain] else []) := by
      by_cases h : p.gain = 1 <;> simp [codeGate, List.filter, h]
    have e3 : List.filter (codeGate p) [Stage.denoise] =
        (if p.denoise then [Stage.denoise] else []) := by
      cases h : p.denoise <;> simp [codeGate, List.filter, h]
    have e4 : List.filter (codeGate p) [Stage.blur] =
        (if p.gaussianBlur ∧ 0 < p.blurKernelSize then [Stage.blur] else []) := by
      by_cases h : p.gaussianBlur ∧ 0 < p.blurKernelSize <;>
        simp [codeGate, List.filter, h]
    have e5 : List.filter (codeGate p) [Stage.sharpen] =
        (if p.sharpen then [Stage.sharpen] else []) := by
      cases h : p.sharpen <;> simp [codeGate, List.filter, h]
    have e6 : List.filter (codeGate p) [Stage.contrast] =
        (if p.contrastAlpha ≠ 1 ∨ p.contrastBeta ≠ 0 then [Stage.contrast] else []) := by
      by_cases h : p.contrastAlpha ≠ 1 ∨ p.contrastBeta ≠ 0 <;>
        simp [codeGate, List.filter, h]
    have e7 : List.filter (codeGate p) [Stage.rescale] = [Stage.rescale] := by
      simp [codeGate, List.filter]
    rw [show fixedOrder = [Stage.normalize] ++ ([Stage.gain] ++ ([Stage.denoise] ++
        ([Stage.blur] ++ ([Stage.sharpen] ++ ([Stage.contrast] ++ [Stage.rescale])))))
      from rfl]
    simp only [List.filter_append]
    rw [e1, e2, e3, e4, e5, e6, e7]
    simp only [stageTrace, List.append_assoc]

/-- C2 witness: a 1×1 matrix under the default configuration. -/
theorem applyFilters_stageTrace_witness :
    applyFilters (Mat.mk 1 1 [5]) ({} : ProcessingParams) =
      Except.ok (List.foldl (runStage ({} : ProcessingParams)) (Mat.mk 1 1 [5])
        (stageTrace ({} : ProcessingParams))) ∧
    stageTrace ({} : ProcessingParams) =
      List.filter (codeGate ({} : ProcessingParams)) fixedOrder :=
  applyFilters_stageTrace (Mat.mk 1 1 [5]) {} (by decide)

/-- C2 counterexample: with gaussianBlur set and the even kernel size 2
(all other stages off), the code's trace contains the blur stage but the
gates as the specification words them (kernel must be odd and > 0) would
skip it, so the claimed gate set differs from the code. -/
theorem stageTrace_ne_spec_gates :
    stageTrace
      { normalize := false, denoise := false, gaussianBlur := true, blurKernelSize := 2 } ≠
    List.filter
      (specGate
        { normalize := false, denoise := false, gaussianBlur := true, blurKernelSize := 2 })
      fixedOrder := by
  decide

end Ultrasound